import Mathlib

/-!
# Verification of the `requester` HTTP convenience layer

Shallow embedding of the retry/backoff engine (`Request.Do` / `Request.sender` /
`Request.wait` in `request.go`), the configuration phase (`Request.Dry`, the
option-application loop of `Do`), and the response handling phase
(`Response.Handle`, `WithResponseStatusCodeAssertion` in the response file).

Modelling conventions:
* Go `error` values are modelled by the inductive `GoErr`; `errors.Join` is
  `errorsJoin` (it discards nils and wraps the remaining errors; its `Unwrap()
  []error` is `goUnwrap`).
* `time.Duration` (an `int64` nanosecond count) is modelled as `Int`; none of
  the verified properties depend on 64-bit overflow.
* The HTTP transport (`http.Client.Do`) is an external capability; it is
  modelled as a function from the send index (0-based: how many sends happened
  before) to an outcome.  Go's `http.Client.Do` returns a nil `*http.Response`
  exactly when it returns a non-nil error, so a transport failure carries no
  response.
* Pointers that may be nil (`*http.Response`, the `Error` field) are `Option`.
* `Request.sender` suspends in `Request.wait` between attempts; the model
  records the list of durations passed to `wait`, in order, together with the
  number of transport sends performed, alongside the source function's actual
  results (final response and accumulated error list).
* Response bodies are in-memory byte buffers (modelled as `String`); reading
  such a buffer with `io.ReadAll` cannot fail, so the unreachable read-error
  branch is not modelled.
-/

/-- Model of a Go `error` value: either a leaf error with a message
(`errors.New` / `fmt.Errorf`), or the wrapper produced by `errors.Join`,
whose `Unwrap() []error` returns the wrapped list. -/
inductive GoErr where
  | msg (s : String)
  | join (es : List GoErr)

/-- Model of Go's `errors.Join(errs...)`: nil values are discarded; if every
value is nil the result is nil, otherwise the non-nil errors are wrapped, in
order, in a single join error. -/
def errorsJoin (errs : List (Option GoErr)) : Option GoErr :=
  match errs.filterMap id with
  | [] => none
  | l => some (.join l)

/-- `Unwrap() []error` on an (optional) Go error: a join error unwraps to its
ordered list of causes; a leaf error (or nil) has no list to unwrap to. -/
def goUnwrap : Option GoErr → List GoErr
  | some (.join es) => es
  | _ => []

/-- Minimal model of `http.Response`: the fields the verified code reads.
The zero value (`&http.Response{}`) has status code 0 and a nil body. -/
structure HttpResponse where
  StatusCode : Int := 0
  Body : Option String := none

/-- The zero value `&http.Response{}` that `Do` uses as a placeholder. -/
def zeroHttpResponse : HttpResponse := {}

/-- Outcome of one call of the transport capability `http.Client.Do`:
either a transport-level error (in which case Go returns a nil response),
or a received HTTP response. -/
inductive TransportOutcome where
  | failure (e : GoErr)
  | success (resp : HttpResponse)

/-- The transport capability: the outcome of the n-th transport send of the
run (0-based). -/
abbrev Transport := Nat → TransportOutcome

/-- A transport that fails at transport level on every send, with `e n` the
error of the n-th send. -/
def failT (e : Nat → GoErr) : Transport := fun n => .failure (e n)

/-- Model of the `FallbackPolicy` enum from `request.go`. -/
inductive FallbackPolicy where
  | linear
  | exponential
deriving DecidableEq

/-- Model of the `Request` struct from `request.go`.  `hasRequest` models
whether the embedded `*http.Request` pointer is non-nil; the embedded
`*http.Client` is the transport capability, passed separately to `Do`.
The `Timeout` field only parameterises the external transport and is not
modelled. -/
structure Request where
  hasRequest : Bool := true
  Error : Option GoErr := none
  Retries : Int := 0
  FallbackDuration : Int := 0
  policy : FallbackPolicy := .linear
  FallbackStatusCodes : List Int := []

/-- A `RequestOption` receives the request by pointer and may mutate it and
return an error; modelled as returning the updated request with the error. -/
abbrev RequestOption := Request → Request × Option GoErr

/-- Model of `WithRetryPolicy` from `request.go`: clamps retries to [0, 10]
and stores the policy fields; never fails. -/
def WithRetryPolicy (retries : Int) (duration : Int) (p : FallbackPolicy)
    (statuscodes : List Int) : RequestOption :=
  fun request =>
    let retries := if retries < 0 then 0 else if retries > 10 then 10 else retries
    ({ request with
        Retries := retries
        FallbackDuration := duration
        policy := p
        FallbackStatusCodes := statuscodes }, none)

/-- The duration `sender` passes to `wait` at the top of a call with
`attempt > 0`: `FallbackDuration * attempt * attempt` under the exponential
policy, `FallbackDuration * attempt` under the default (linear) case of the
switch. -/
def backoffDuration (r : Request) (attempt : Nat) : Int :=
  match r.policy with
  | .exponential => r.FallbackDuration * ((attempt : Int) * (attempt : Int))
  | .linear => r.FallbackDuration * (attempt : Int)

/-- The synthetic error `fmt.Errorf("received HTTP status code %d in attempt
%d", statusCode, attempt)` recorded when a response status matched a
configured fallback status code. -/
def statusRetryErr (statusCode : Int) (attempt : Nat) : GoErr :=
  .msg ("received HTTP status code " ++ toString statusCode ++ " in attempt "
    ++ toString attempt)

/-- Result of a `sender` run: the two values the Go function returns (final
response and accumulated per-attempt error list), instrumented with the
durations passed to `wait` (in order) and the number of transport sends
performed. -/
structure SenderResult where
  response : Option HttpResponse
  errs : List GoErr
  waits : List Int
  sends : Nat

/-- Model of `Request.sender` from `request.go` (lines 91-118).  A call with
`attempt > 0` first returns the accumulated state if `attempt >= Retries`,
otherwise waits for the policy's backoff duration; it then increments
`attempt`, performs one transport send (the send index equals the incoming
`attempt`, since every prior call performed exactly one send), and either
returns, or recurses after recording the transport error (the transport's nil
response overwriting the `response` parameter) or the synthetic
retryable-status error (first matching configured status code). -/
def sender (r : Request) (t : Transport) (attempt : Nat)
    (response : Option HttpResponse) (errs : List GoErr) : SenderResult :=
  if 0 < attempt ∧ (attempt : Int) ≥ r.Retries then
    ⟨response, errs, [], 0⟩
  else
    let waits0 : List Int := if 0 < attempt then [backoffDuration r attempt] else []
    match t attempt with
    | .failure e =>
      let rest := sender r t (attempt + 1) none (errs ++ [e])
      ⟨rest.response, rest.errs, waits0 ++ rest.waits, rest.sends + 1⟩
    | .success resp =>
      if resp.StatusCode ∈ r.FallbackStatusCodes then
        let rest := sender r t (attempt + 1) (some resp)
          (errs ++ [statusRetryErr resp.StatusCode (attempt + 1)])
        ⟨rest.response, rest.errs, waits0 ++ rest.waits, rest.sends + 1⟩
      else
        ⟨some resp, errs, waits0, 1⟩
termination_by r.Retries.toNat + 1 - attempt
decreasing_by
  all_goals
    have h : ¬(0 < attempt ∧ (attempt : Int) ≥ r.Retries) := by assumption
    rw [not_and_or, not_lt, not_le] at h
    omega

/-- Model of the `Response` struct: wraps the (possibly nil) underlying
`*http.Response` together with the aggregated error. -/
structure Response where
  Response : Option HttpResponse
  Err : Option GoErr

/-- The option-application loop of `Do`: applies each option in order to the
(mutating) request and collects each option's returned error (nil or not),
in order. -/
def applyOpts (r : Request) (opts : List RequestOption) :
    Request × List (Option GoErr) :=
  match opts with
  | [] => (r, [])
  | o :: rest =>
    let (r', e) := o r
    let (r'', es) := applyOpts r' rest
    (r'', e :: es)

/-- Result of `Request.Do`, instrumented like `SenderResult`. -/
structure DoResult where
  response : Response
  sends : Nat
  waits : List Int

/-- Model of `Request.Do` from `request.go` (lines 75-89).  If the request
carries a construction error or its underlying `*http.Request` is nil, it
returns a zero-value placeholder response wrapping only that error, without
sending.  Otherwise it applies the options (collecting their error results),
runs `sender(0, nil, [])`, appends the sender's per-attempt errors, and wraps
the sender's final response with `errors.Join` of all collected errors. -/
def Do (r : Request) (opts : List RequestOption) (t : Transport) : DoResult :=
  if r.Error.isSome ∨ r.hasRequest = false then
    ⟨⟨some zeroHttpResponse, r.Error⟩, 0, []⟩
  else
    let ropts := applyOpts r opts
    let s := sender ropts.1 t 0 none []
    ⟨⟨s.response, errorsJoin (ropts.2 ++ s.errs.map some)⟩, s.sends, s.waits⟩

/-- The loop of `Request.Dry`: for each option `o`, Go executes
`err = errors.Join(r.Error, o(r))`, overwriting `err` with the join of the
request's `Error` field (read left-to-right before the call) and the option's
result; the last computed value is returned. -/
def dryLoop (r : Request) (err : Option GoErr) :
    List RequestOption → Request × Option GoErr
  | [] => (r, err)
  | o :: rest =>
    let e0 := r.Error
    let (r', e) := o r
    dryLoop r' (errorsJoin [e0, e]) rest

/-- Model of `Request.Dry` from `request.go` (lines 62-72): returns the
construction error unchanged if present; otherwise runs the options through
`dryLoop` and returns the final `err` value. -/
def Dry (r : Request) (opts : List RequestOption) : Request × Option GoErr :=
  match r.Error with
  | some e => (r, some e)
  | none => dryLoop r none opts

/-- A `ResponseOption` receives the response by pointer and may mutate it and
return an error; modelled as returning the updated response with the error. -/
abbrev ResponseOption := Response → Response × Option GoErr

/-- Result of `Response.Handle`, instrumented with the number of handler
steps that were invoked. -/
structure HandleResult where
  response : Response
  err : Option GoErr
  invoked : Nat

/-- The loop of `Response.Handle`: for each option `o`, Go executes
`err = errors.Join(r.Err, o(r))`, overwriting `err` with the join of the
response's `Err` field (read left-to-right before the call) and the option's
result; the last computed value is returned. -/
def handleLoop (r : Response) (err : Option GoErr) (invoked : Nat) :
    List ResponseOption → HandleResult
  | [] => ⟨r, err, invoked⟩
  | o :: rest =>
    let e0 := r.Err
    let (r', e) := o r
    handleLoop r' (errorsJoin [e0, e]) (invoked + 1) rest

/-- Model of `Response.Handle` from the response file (lines 24-35): if the
response already carries an error, it is returned at once and no option runs;
otherwise the options run in order through `handleLoop` and the final `err`
value is returned. -/
def Handle (r : Response) (opts : List ResponseOption) : HandleResult :=
  match r.Err with
  | some e => ⟨r, some e, 0⟩
  | none => handleLoop r none 0 opts

/-- Go `fmt` flag characters. -/
def goFmtFlags : List Char := ['+', '-', '#', ' ', '0']

/-- The characters a `fmt` directive consumes after its `%` before its verb:
flag characters, then width digits, then an optional `.`-prefixed
precision; the returned list starts at the verb. -/
def goFmtSkipPrefix (l : List Char) : List Char :=
  if ((l.dropWhile (fun c => c ∈ goFmtFlags)).dropWhile Char.isDigit).head?
      = some '.' then
    ((l.dropWhile (fun c => c ∈ goFmtFlags)).dropWhile Char.isDigit).tail.dropWhile
      Char.isDigit
  else
    (l.dropWhile (fun c => c ∈ goFmtFlags)).dropWhile Char.isDigit

/-- Model of Go's `fmt.Sprintf` applied to a format string with NO operands
(the situation of `fmt.Errorf(string(body))`), over the character list: a
directive `%` consumes flags, width digits and an optional precision, then
`%%` emits a literal percent, a trailing `%` emits `%!(NOVERB)`, and any
other verb emits `%!v(MISSING)` for that verb `v` since no operand remains.
Argument-consuming widths (`*`) are not used by any verified input. -/
def goFmtChars : List Char → List Char
  | [] => []
  | '%' :: rest =>
    match h : goFmtSkipPrefix rest with
    | [] => ("%!(NOVERB)").data
    | c :: rest4 =>
      if c = '%' then '%' :: goFmtChars rest4
      else ("%!".data ++ [c] ++ "(MISSING)".data) ++ goFmtChars rest4
  | c :: rest => c :: goFmtChars rest
termination_by l => l.length
decreasing_by
  · have hle : (goFmtSkipPrefix rest).length ≤ rest.length := by
      have h2 : ((rest.dropWhile (fun c => decide (c ∈ goFmtFlags))).dropWhile
          Char.isDigit).length ≤ rest.length :=
        ((List.dropWhile_suffix _).trans (List.dropWhile_suffix _)).length_le
      unfold goFmtSkipPrefix
      split
      · have h3 := (List.dropWhile_suffix (p := Char.isDigit)
          (l := ((rest.dropWhile (fun c => decide (c ∈ goFmtFlags))).dropWhile
            Char.isDigit).tail)).length_le
        have h4 := List.length_tail ((rest.dropWhile
          (fun c => decide (c ∈ goFmtFlags))).dropWhile Char.isDigit)
        omega
      · exact h2
    rw [h] at hle
    simp only [List.length_cons] at hle ⊢
    omega
  · have hle : (goFmtSkipPrefix rest).length ≤ rest.length := by
      have h2 : ((rest.dropWhile (fun c => decide (c ∈ goFmtFlags))).dropWhile
          Char.isDigit).length ≤ rest.length :=
        ((List.dropWhile_suffix _).trans (List.dropWhile_suffix _)).length_le
      unfold goFmtSkipPrefix
      split
      · have h3 := (List.dropWhile_suffix (p := Char.isDigit)
          (l := ((rest.dropWhile (fun c => decide (c ∈ goFmtFlags))).dropWhile
            Char.isDigit).tail)).length_le
        have h4 := List.length_tail ((rest.dropWhile
          (fun c => decide (c ∈ goFmtFlags))).dropWhile Char.isDigit)
        omega
      · exact h2
    rw [h] at hle
    simp only [List.length_cons] at hle ⊢
    omega
  · simp only [List.length_cons]
    omega

/-- Model of `fmt.Errorf(s).Error()` for a format string `s` with no
operands. -/
def goFormatNoOperands (s : String) : String :=
  String.mk (goFmtChars s.data)

/-- Go's `%v` rendering of an `[]int` slice: elements space-separated inside
brackets, e.g. `[201]`. -/
def goIntSliceFormat (codes : List Int) : String :=
  "[" ++ String.intercalate " " (codes.map toString) ++ "]"

/-- The formatted mismatch message of the status assertion:
`fmt.Errorf("expected status code(s) '%v', received '%d'", statusCodes,
response.StatusCode)`. -/
def statusMismatchMsg (statusCodes : List Int) (statusCode : Int) : String :=
  "expected status code(s) '" ++ goIntSliceFormat statusCodes
    ++ "', received '" ++ toString statusCode ++ "'"

/-- Model of `WithResponseStatusCodeAssertion` from the response file (lines
39-61).  Field selectors on the embedded `*http.Response` are modelled via
the inner response (`Handle` only runs steps when the send phase succeeded,
in which case it is present; the zero value stands in otherwise).  If the
status code matches a configured code the step succeeds.  Otherwise, when a
body is present it is fully read and restored, and if non-empty the error is
`fmt.Errorf(string(body))` (the body used as a format string with no
operands); with an empty or absent body the error is the formatted
expectation message. -/
def WithResponseStatusCodeAssertion (statusCodes : List Int) : ResponseOption :=
  fun response =>
    let hr := response.Response.getD zeroHttpResponse
    if statusCodes.contains hr.StatusCode then
      (response, none)
    else
      match hr.Body with
      | some b =>
        let response := { response with Response := some { hr with Body := some b } }
        if 0 < b.length then
          (response, some (.msg (goFormatNoOperands b)))
        else
          (response, some (.msg (statusMismatchMsg statusCodes hr.StatusCode)))
      | none =>
        (response, some (.msg (statusMismatchMsg statusCodes hr.StatusCode)))

/-! ## Fixtures: concrete requests, transports and steps used to evaluate
the embedded operations at specific inputs. -/

/-- Per-attempt transport errors of an always-failing transport. -/
def eFail : Nat → GoErr := fun n => .msg ("dial error " ++ toString n)

/-- A transport that fails at transport level on every attempt. -/
def failingTransport : Transport := failT eFail

/-- A transport that always succeeds with a bodyless 200 response. -/
def okTransport : Transport := fun _ => .success { StatusCode := 200 }

/-- A fresh request with all defaults (no error, zero retries). -/
def reqPlain : Request := {}

/-- A request with a retry budget of 3 (matching the repository's own retry
tests). -/
def req3 : Request := { Retries := 3 }

/-- A linear-policy request with 2 retries and base delay 5. -/
def reqLin : Request := { Retries := 2, FallbackDuration := 5 }

/-- A linear-policy request with 3 retries and base delay 1 (the
configuration of the repository's linear-fallback test). -/
def reqLin3 : Request := { Retries := 3, FallbackDuration := 1 }

/-- A request already carrying a construction error. -/
def reqErr : Request := { Error := some (.msg "ctor") }

/-- A configuration option that fails with the given message without
mutating the request. -/
def failOpt (s : String) : RequestOption := fun r => (r, some (.msg s))

/-- A handler step that fails with the given message without mutating the
response. -/
def failStep (s : String) : ResponseOption := fun r => (r, some (.msg s))

/-- A send-phase-successful response with status 200 and no body. -/
def okResponse : Response := { Response := some { StatusCode := 200 }, Err := none }

/-- A send-phase-successful response with status 200 and the given body. -/
def resp200 (b : Option String) : Response :=
  { Response := some { StatusCode := 200, Body := b }, Err := none }

/-! ## General lemmas about the embedded operations. -/

theorem sender_guard (r : Request) (t : Transport) (a : Nat)
    (resp : Option HttpResponse) (errs : List GoErr)
    (h : 0 < a ∧ (a : Int) ≥ r.Retries) :
    sender r t a resp errs = ⟨resp, errs, [], 0⟩ := by
  rw [sender]
  simp [h]

theorem sender_fail_step (r : Request) (e : Nat → GoErr) (a : Nat)
    (resp : Option HttpResponse) (errs : List GoErr)
    (h : ¬(0 < a ∧ (a : Int) ≥ r.Retries)) :
    sender r (failT e) a resp errs =
      (let rest := sender r (failT e) (a + 1) none (errs ++ [e a])
       ⟨rest.response, rest.errs,
        (if 0 < a then [backoffDuration r a] else []) ++ rest.waits,
        rest.sends + 1⟩) := by
  conv_lhs => rw [sender]
  simp [h, failT]

/-- Closed form of a `sender` run over an always-failing transport, from any
live starting attempt: the final response is nil, the per-attempt errors of
attempts `a, a+1, …` up to the budget are appended in order, the waits are
the policy backoffs of the intermediate attempts, and the number of sends is
the remaining budget. -/
theorem sender_fail_spec (r : Request) (e : Nat → GoErr) :
    ∀ (a : Nat) (resp : Option HttpResponse) (errs : List GoErr),
    ¬(0 < a ∧ (a : Int) ≥ r.Retries) →
    sender r (failT e) a resp errs =
      ⟨none,
       errs ++ (List.range' a ((max 1 r.Retries).toNat - a)).map e,
       (List.range' (max a 1) ((max 1 r.Retries).toNat - max a 1)).map
         (fun k => backoffDuration r k),
       (max 1 r.Retries).toNat - a⟩ := by
  have key : ∀ (n a : Nat), (max 1 r.Retries).toNat + 1 - a ≤ n →
      ∀ (resp : Option HttpResponse) (errs : List GoErr),
      ¬(0 < a ∧ (a : Int) ≥ r.Retries) →
      sender r (failT e) a resp errs =
        ⟨none,
         errs ++ (List.range' a ((max 1 r.Retries).toNat - a)).map e,
         (List.range' (max a 1) ((max 1 r.Retries).toNat - max a 1)).map
           (fun k => backoffDuration r k),
         (max 1 r.Retries).toNat - a⟩ := by
    intro n
    induction n with
    | zero =>
      intro a hn resp errs hg
      exfalso
      rw [not_and_or, not_lt, not_le] at hg
      omega
    | succ n ih =>
      intro a hn resp errs hg
      have hg' := hg
      rw [not_and_or, not_lt, not_le] at hg'
      rw [sender_fail_step r e a resp errs hg]
      by_cases h2 : 0 < a + 1 ∧ ((a : Int) + 1) ≥ r.Retries
      · -- the recursive call at a+1 returns at once
        have h2' : 0 < a + 1 ∧ ((a + 1 : Nat) : Int) ≥ r.Retries := by
          push_cast
          exact h2
        rw [sender_guard r (failT e) (a+1) none (errs ++ [e a]) h2']
        have hM : (max 1 r.Retries).toNat = a + 1 := by omega
        simp only [SenderResult.mk.injEq]
        refine ⟨trivial, ?_, ?_, by omega⟩
        · rw [hM]
          have h1 : a + 1 - a = 1 := by omega
          rw [h1]
          simp [List.range'_one]
        · rcases Nat.eq_zero_or_pos a with ha | ha
          · subst ha
            simp [hM]
          · have hmax1 : max a 1 = a := Nat.max_eq_left ha
            rw [hmax1, hM]
            have h1 : a + 1 - a = 1 := by omega
            rw [h1]
            simp [ha, List.range'_one]
      · -- the recursive call at a+1 retries further
        have h2' : ¬(0 < a + 1 ∧ ((a + 1 : Nat) : Int) ≥ r.Retries) := by
          push_cast
          exact h2
        rw [ih (a+1) (by omega) none (errs ++ [e a]) h2']
        obtain ⟨d, hd⟩ : ∃ d, (max 1 r.Retries).toNat = a + 1 + d := by
          refine ⟨(max 1 r.Retries).toNat - (a+1), ?_⟩
          rw [not_and_or, not_lt, not_le] at h2'
          omega
        simp only [SenderResult.mk.injEq]
        refine ⟨trivial, ?_, ?_, by omega⟩
        · have ha1 : a + 1 + d - a = d + 1 := by omega
          have ha2 : a + 1 + d - (a + 1) = d := by omega
          rw [hd, ha1, ha2, List.range'_succ]
          simp
        · rcases Nat.eq_zero_or_pos a with ha | ha
          · subst ha
            simp [hd]
          · have hmax1 : max a 1 = a := Nat.max_eq_left ha
            have hmax2 : max (a+1) 1 = a + 1 := Nat.max_eq_left (by omega)
            rw [hmax1, hmax2, hd]
            have ha1 : a + 1 + d - a = d + 1 := by omega
            have ha2 : a + 1 + d - (a + 1) = d := by omega
            rw [ha1, ha2, List.range'_succ]
            simp [ha]
  intro a resp errs hg
  exact key ((max 1 r.Retries).toNat + 1 - a) a le_rfl resp errs hg

/-- Any `sender` run performs at most the remaining attempt budget
`max(1, Retries) - attempt` transport sends, whatever the transport
returns. -/
theorem sender_sends_le (r : Request) (t : Transport) :
    ∀ (a : Nat) (resp : Option HttpResponse) (errs : List GoErr),
    (sender r t a resp errs).sends ≤ (max 1 r.Retries).toNat - a := by
  have key : ∀ (n a : Nat), (max 1 r.Retries).toNat + 1 - a ≤ n →
      ∀ (resp : Option HttpResponse) (errs : List GoErr),
      (sender r t a resp errs).sends ≤ (max 1 r.Retries).toNat - a := by
    intro n
    induction n with
    | zero =>
      intro a hn resp errs
      have hg : 0 < a ∧ (a : Int) ≥ r.Retries := by
        constructor <;> omega
      rw [sender_guard r t a resp errs hg]
      simp
    | succ n ih =>
      intro a hn resp errs
      by_cases hg : 0 < a ∧ (a : Int) ≥ r.Retries
      · rw [sender_guard r t a resp errs hg]
        simp
      · have hg' := hg
        rw [not_and_or, not_lt, not_le] at hg'
        conv_lhs => rw [sender]
        rw [if_neg hg]
        cases ht : t a with
        | failure e =>
          have hrec := ih (a+1) (by omega) none (errs ++ [e])
          simp only
          omega
        | success resp2 =>
          dsimp only
          by_cases hc : resp2.StatusCode ∈ r.FallbackStatusCodes
          · rw [if_pos hc]
            have hrec := ih (a+1) (by omega) (some resp2)
              (errs ++ [statusRetryErr resp2.StatusCode (a + 1)])
            simp only
            omega
          · rw [if_neg hc]
            simp only
            omega
  intro a resp errs
  exact key ((max 1 r.Retries).toNat + 1 - a) a le_rfl resp errs

/-- The waits of any `sender` run are the policy backoffs of consecutive
attempt numbers starting at `max(attempt, 1)`: from the initial call
(`attempt = 0`) the i-th recorded wait (0-based) uses multiplier `i + 1`. -/
theorem sender_waits_spec (r : Request) (t : Transport) :
    ∀ (a : Nat) (resp : Option HttpResponse) (errs : List GoErr),
    (sender r t a resp errs).waits =
      (List.range' (max a 1) (sender r t a resp errs).waits.length).map
        (fun k => backoffDuration r k) := by
  have key : ∀ (n a : Nat), (max 1 r.Retries).toNat + 1 - a ≤ n →
      ∀ (resp : Option HttpResponse) (errs : List GoErr),
      (sender r t a resp errs).waits =
        (List.range' (max a 1) (sender r t a resp errs).waits.length).map
          (fun k => backoffDuration r k) := by
    intro n
    induction n with
    | zero =>
      intro a hn resp errs
      have hg : 0 < a ∧ (a : Int) ≥ r.Retries := by
        constructor <;> omega
      rw [sender_guard r t a resp errs hg]
      simp
    | succ n ih =>
      intro a hn resp errs
      by_cases hg : 0 < a ∧ (a : Int) ≥ r.Retries
      · rw [sender_guard r t a resp errs hg]
        simp
      · have hg' := hg
        rw [not_and_or, not_lt, not_le] at hg'
        conv_lhs => rw [sender]
        conv_rhs => rw [sender]
        rw [if_neg hg]
        cases ht : t a with
        | failure e =>
          have hrec := ih (a+1) (by omega) none (errs ++ [e])
          simp only
          rw [hrec]
          rcases Nat.eq_zero_or_pos a with ha | ha
          · subst ha
            simp
          · have hmax1 : max a 1 = a := Nat.max_eq_left ha
            have hmax2 : max (a+1) 1 = a + 1 := Nat.max_eq_left (by omega)
            rw [hmax2, hmax1]
            simp only [if_pos ha, List.length_map, List.length_range',
              List.singleton_append, List.length_cons]
            rw [List.range'_succ]
            simp
        | success resp2 =>
          dsimp only
          by_cases hc : resp2.StatusCode ∈ r.FallbackStatusCodes
          · rw [if_pos hc]
            have hrec := ih (a+1) (by omega) (some resp2)
              (errs ++ [statusRetryErr resp2.StatusCode (a + 1)])
            simp only
            rw [hrec]
            rcases Nat.eq_zero_or_pos a with ha | ha
            · subst ha
              simp
            · have hmax1 : max a 1 = a := Nat.max_eq_left ha
              have hmax2 : max (a+1) 1 = a + 1 := Nat.max_eq_left (by omega)
              rw [hmax2, hmax1]
              simp only [if_pos ha, List.length_map, List.length_range',
                List.singleton_append, List.length_cons]
              rw [List.range'_succ]
              simp
          · rw [if_neg hc]
            simp only
            rcases Nat.eq_zero_or_pos a with ha | ha
            · subst ha
              simp
            · have hmax1 : max a 1 = a := Nat.max_eq_left ha
              rw [hmax1]
              simp [ha, List.range'_one]
  intro a resp errs
  exact key ((max 1 r.Retries).toNat + 1 - a) a le_rfl resp errs

/-- A `sender` call whose send succeeds with a status outside the configured
fallback set stops at once with that response and one send. -/
theorem sender_success_stop (r : Request) (t : Transport) (a : Nat)
    (resp0 : Option HttpResponse) (errs : List GoErr) (resp : HttpResponse)
    (hg : ¬(0 < a ∧ (a : Int) ≥ r.Retries))
    (ht : t a = .success resp)
    (hc : resp.StatusCode ∉ r.FallbackStatusCodes) :
    sender r t a resp0 errs =
      ⟨some resp, errs, if 0 < a then [backoffDuration r a] else [], 1⟩ := by
  conv_lhs => rw [sender]
  rw [if_neg hg, ht]
  dsimp only
  rw [if_neg hc]

/-- Unwrapping the result of `errors.Join` yields exactly the non-nil
errors that were joined, in order. -/
theorem goUnwrap_errorsJoin (l : List (Option GoErr)) :
    goUnwrap (errorsJoin l) = l.filterMap id := by
  unfold errorsJoin
  split
  · rename_i heq
    rw [heq]
    rfl
  · rfl

/-- `errors.Join` returns nil exactly when every joined value is nil. -/
theorem errorsJoin_eq_none_iff (l : List (Option GoErr)) :
    errorsJoin l = none ↔ l.filterMap id = [] := by
  unfold errorsJoin
  split
  · rename_i heq
    simp [heq]
  · rename_i heq
    exact ⟨fun hcon => Option.noConfusion hcon, fun hnil => absurd hnil heq⟩

/-- `Do` on a request with a construction error or nil underlying request:
the placeholder response wrapping the stored error, with no sends and no
waits. -/
theorem Do_shortcircuit (r : Request) (opts : List RequestOption)
    (t : Transport) (h : r.Error.isSome = true ∨ r.hasRequest = false) :
    Do r opts t = ⟨⟨some zeroHttpResponse, r.Error⟩, 0, []⟩ := by
  unfold Do
  rw [if_pos h]

/-- `Do` on a healthy request: options are applied, `sender` runs from
attempt 0, and all collected errors are joined. -/
theorem Do_run (r : Request) (opts : List RequestOption) (t : Transport)
    (hE : r.Error = none) (hR : r.hasRequest = true) :
    Do r opts t =
      ⟨⟨(sender (applyOpts r opts).1 t 0 none []).response,
        errorsJoin ((applyOpts r opts).2
          ++ (sender (applyOpts r opts).1 t 0 none []).errs.map some)⟩,
       (sender (applyOpts r opts).1 t 0 none []).sends,
       (sender (applyOpts r opts).1 t 0 none []).waits⟩ := by
  unfold Do
  rw [if_neg (by simp [hE, hR])]

/-- `Do` with no options on a healthy request. -/
theorem Do_noopts (r : Request) (t : Transport)
    (hE : r.Error = none) (hR : r.hasRequest = true) :
    Do r [] t =
      ⟨⟨(sender r t 0 none []).response,
        errorsJoin ((sender r t 0 none []).errs.map some)⟩,
       (sender r t 0 none []).sends, (sender r t 0 none []).waits⟩ := by
  rw [Do_run r [] t hE hR]
  simp [applyOpts]

/-- Gauss sum of the linear-policy backoffs of attempts `1..n`. -/
theorem sum_linear_backoff (r : Request) (hP : r.policy = FallbackPolicy.linear) :
    ∀ n : Nat,
    2 * (((List.range' 1 n).map (fun k => backoffDuration r k)).sum)
      = r.FallbackDuration * n * (n + 1) := by
  have hb : (fun k => backoffDuration r k) = fun k : Nat => r.FallbackDuration * (k : Int) := by
    funext k
    simp [backoffDuration, hP]
  intro n
  induction n with
  | zero => simp
  | succ n ih =>
    rw [List.range'_concat, List.map_append, List.sum_append]
    rw [hb] at ih ⊢
    simp only [List.map_cons, List.map_nil, List.sum_cons, List.sum_nil]
    push_cast
    linear_combination ih

/-- A format string without `%` passes through `fmt` unchanged. -/
theorem goFmtChars_no_percent :
    ∀ l : List Char, (∀ c ∈ l, c ≠ '%') → goFmtChars l = l := by
  intro l
  induction l with
  | nil =>
    intro h
    rw [goFmtChars]
  | cons c rest ih =>
    intro h
    have hc : c ≠ '%' := h c (List.mem_cons_self c rest)
    have hrest : ∀ c ∈ rest, c ≠ '%' := fun c hm => h c (List.mem_cons_of_mem _ hm)
    rw [goFmtChars.eq_def]
    split
    · rename_i heq
      exact absurd heq (by simp)
    · rename_i rest' heq
      injection heq with h1 h2
      exact absurd h1 hc
    · rename_i c' rest' hpct hne
      injection hne with h1 h2
      subst h1
      subst h2
      rw [ih hrest]

/-- `fmt.Errorf("%d")` with no operands renders as `%!d(MISSING)`. -/
theorem goFmt_percent_d : goFormatNoOperands "%d" = "%!d(MISSING)" := by
  have h1 : "%d".data = ['%', 'd'] := rfl
  unfold goFormatNoOperands
  rw [h1]
  rw [goFmtChars.eq_def]
  split
  · rename_i heq
    exact absurd heq (by simp)
  · rename_i rest' heq
    injection heq with h1 h2
    subst h2
    have hskip : goFmtSkipPrefix ['d'] = ['d'] := by decide
    split
    · rename_i hmatch
      rw [hskip] at hmatch
      exact absurd hmatch (by simp)
    · rename_i cv restv hmatch
      rw [hskip] at hmatch
      injection hmatch with hv1 hv2
      subst hv1
      subst hv2
      rw [if_neg (by decide)]
      rw [goFmtChars.eq_def]
      rfl
  · rename_i c' rest' hpct hne
    injection hne with ha hb
    exact absurd ha.symm hpct

/-- The formatted expectation message for expected `[201]`, actual `200`. -/
theorem statusMismatch_201_200 :
    statusMismatchMsg [201] 200 = "expected status code(s) '[201]', received '200'" := by
  decide

/-- C1 (amended): when every transport call fails at transport level, `Do`
performs exactly `max(1, Retries)` attempts — not `Retries + 1` — and the
aggregated error unwraps to the ordered list of those attempts' errors; a
budget of 0 still performs exactly one attempt with no retries. -/
theorem c1_retry_attempts_amended (r : Request) (e : Nat → GoErr)
    (hE : r.Error = none) (hR : r.hasRequest = true) :
    (Do r [] (failT e)).sends = (max 1 r.Retries).toNat ∧
    goUnwrap (Do r [] (failT e)).response.Err
      = (List.range (max 1 r.Retries).toNat).map e ∧
    (r.Retries = 0 → (Do r [] (failT e)).sends = 1) := by
  rw [Do_noopts r (failT e) hE hR,
      sender_fail_spec r e 0 none [] (by simp)]
  refine ⟨rfl, ?_, ?_⟩
  · dsimp only
    rw [goUnwrap_errorsJoin, List.filterMap_map]
    have hcomp : (id ∘ some : GoErr → Option GoErr) = some := rfl
    rw [hcomp, List.filterMap_some]
    rw [List.nil_append, Nat.sub_zero, ← List.range_eq_range']
  · intro hz
    dsimp only
    rw [hz]
    rfl

/-- Evaluation of the amended C1 at the repository's own test configuration:
retry budget 3 with an always-failing transport gives exactly 3 attempts,
whose errors are unwrapped in order. -/
theorem c1_retry_attempts_amended_witness :
    (Do req3 [] (failT eFail)).sends = 3 ∧
    goUnwrap (Do req3 [] (failT eFail)).response.Err
      = [eFail 0, eFail 1, eFail 2] := by
  have h := c1_retry_attempts_amended req3 eFail rfl rfl
  refine ⟨?_, ?_⟩
  · rw [h.1]
    rfl
  · rw [h.2.1]
    rfl

/-- C1 (counterexample): with retry budget `N = 3` and an always-failing
transport, `Do` performs 3 transport attempts with 3 unwrapped errors, not
the `N + 1 = 4` the claim states. -/
theorem c1_counterexample :
    (Do req3 [] failingTransport).sends = 3 ∧
    (goUnwrap (Do req3 [] failingTransport).response.Err).length = 3 ∧
    ¬((Do req3 [] failingTransport).sends = 3 + 1) := by
  rw [show failingTransport = failT eFail from rfl,
      Do_noopts req3 (failT eFail) rfl rfl,
      sender_fail_spec req3 eFail 0 none [] (by simp)]
  refine ⟨rfl, ?_, by decide⟩
  rw [goUnwrap_errorsJoin]
  rfl

/-- C2 (counterexample): on a healthy request whose every attempt fails at
transport level, the `Response` returned by `Do` wraps a nil underlying
`*http.Response`, so reading its status code would dereference nil. -/
theorem c2_counterexample :
    (Do reqPlain [] failingTransport).response.Response = none := by
  rw [show failingTransport = failT eFail from rfl,
      Do_noopts reqPlain (failT eFail) rfl rfl,
      sender_fail_spec reqPlain eFail 0 none [] (by simp)]

/-- C2 (amended): the non-nil zero-value placeholder is guaranteed only on
the short-circuit path (construction error or nil underlying request); when
the send phase runs and every attempt fails at transport level, the
underlying response of the returned `Response` is nil. -/
theorem c2_amended_placeholder (r : Request) (opts : List RequestOption)
    (t : Transport) (e : Nat → GoErr) :
    (r.Error.isSome = true ∨ r.hasRequest = false →
      (Do r opts t).response.Response = some zeroHttpResponse) ∧
    (r.Error = none → r.hasRequest = true →
      (Do r [] (failT e)).response.Response = none) := by
  constructor
  · intro h
    rw [Do_shortcircuit r opts t h]
  · intro hE hR
    rw [Do_noopts r (failT e) hE hR,
        sender_fail_spec r e 0 none [] (by simp)]

/-- Evaluation of the amended C2: the placeholder on the short-circuit path
and the nil underlying response on an all-fail run. -/
theorem c2_amended_placeholder_witness :
    (Do reqErr [] okTransport).response.Response = some zeroHttpResponse ∧
    (Do reqPlain [] (failT eFail)).response.Response = none :=
  ⟨(c2_amended_placeholder reqErr [] okTransport eFail).1 (Or.inl rfl),
   (c2_amended_placeholder reqPlain [] okTransport eFail).2 rfl rfl⟩

/-- C6 (amended): on an all-fail linear run the total backoff requested is
`D * (1 + 2 + … + (M-1))` for `M = max(1, Retries)` attempts, i.e.
`2 * total = D * (M - 1) * M` — not the claimed `D * N * (N+1) / 2`. -/
theorem c6_total_backoff_amended (r : Request) (e : Nat → GoErr)
    (hE : r.Error = none) (hR : r.hasRequest = true)
    (hP : r.policy = FallbackPolicy.linear) :
    2 * ((Do r [] (failT e)).waits).sum =
      r.FallbackDuration * (((max 1 r.Retries).toNat : Int) - 1)
        * ((max 1 r.Retries).toNat : Int) := by
  rw [Do_noopts r (failT e) hE hR,
      sender_fail_spec r e 0 none [] (by simp)]
  dsimp only
  obtain ⟨d, hd⟩ : ∃ d, (max 1 r.Retries).toNat = d + 1 :=
    ⟨(max 1 r.Retries).toNat - 1, by omega⟩
  rw [hd]
  have hmax : max 0 1 = 1 := rfl
  rw [hmax, Nat.add_sub_cancel, sum_linear_backoff r hP d]
  push_cast
  ring

/-- Evaluation of the amended C6 at the repository's linear-fallback test
configuration (3 retries, base delay 1): the total backoff is 3 (so twice
the total is 6), i.e. `1 + 2` over the two retry transitions. -/
theorem c6_total_backoff_amended_witness :
    2 * ((Do reqLin3 [] (failT eFail)).waits).sum = 6 := by
  rw [c6_total_backoff_amended reqLin3 eFail rfl rfl rfl]
  decide

/-- C6 (counterexample): with `N = 3` retries, linear policy and base delay
`D = 1`, an all-fail run requests a total backoff of `1 + 2 = 3`, strictly
below the claimed lower bound `D*N*(N+1)/2 = 6`. -/
theorem c6_counterexample :
    (Do reqLin3 [] failingTransport).waits.sum = 3 ∧
    ¬(reqLin3.FallbackDuration * reqLin3.Retries * (reqLin3.Retries + 1) / 2
        ≤ (Do reqLin3 [] failingTransport).waits.sum) := by
  have hsum : (Do reqLin3 [] failingTransport).waits.sum = 3 := by
    rw [show failingTransport = failT eFail from rfl,
        Do_noopts reqLin3 (failT eFail) rfl rfl,
        sender_fail_spec reqLin3 eFail 0 none [] (by simp)]
    rfl
  refine ⟨hsum, ?_⟩
  rw [hsum]
  decide

/-- C10: for every value of the `Retries` field (negative and above-clamp
values included) and every sequence of transport outcomes, the recursive
`sender` loop terminates (it is a total function of this development) after
at most `max(1, Retries)` transport sends, and `Do` obeys the same bound for
the request produced by its option-application phase. -/
theorem c10_sender_terminates_bounded (r : Request) (t : Transport)
    (opts : List RequestOption) :
    (sender r t 0 none []).sends ≤ (max 1 r.Retries).toNat ∧
    (Do r opts t).sends ≤ (max 1 (applyOpts r opts).1.Retries).toNat := by
  constructor
  · have h := sender_sends_le r t 0 none []
    simpa using h
  · by_cases hsc : r.Error.isSome = true ∨ r.hasRequest = false
    · rw [Do_shortcircuit r opts t hsc]
      simp
    · push_neg at hsc
      obtain ⟨h1, h2⟩ := hsc
      have hE : r.Error = none := by
        cases hcase : r.Error with
        | none => rfl
        | some e => rw [hcase] at h1; simp at h1
      have hR : r.hasRequest = true := by
        cases hcase : r.hasRequest with
        | false => exact absurd hcase h2
        | true => rfl
      rw [Do_run r opts t hE hR]
      dsimp only
      have h := sender_sends_le (applyOpts r opts).1 t 0 none []
      simpa using h

/-- C3 (code evaluation at the failing input): on a response with no
send-phase error, `Handle` runs both failing steps but returns only the
second step's error — the Go loop executes
`err = errors.Join(r.Err, o(r))`, joining with the response's nil `Err`
field instead of the accumulated `err`, so the first step's error is
dropped from the result. -/
theorem c3_handle_drops_earlier_errors :
    (Handle okResponse [failStep "a", failStep "b"]).err
      = some (.join [.msg "b"]) ∧
    (Handle okResponse [failStep "a", failStep "b"]).invoked = 2 ∧
    GoErr.msg "a" ∉ goUnwrap (Handle okResponse [failStep "a", failStep "b"]).err := by
  refine ⟨rfl, rfl, ?_⟩
  intro hmem
  rw [show goUnwrap (Handle okResponse [failStep "a", failStep "b"]).err
        = [GoErr.msg "b"] from rfl] at hmem
  have h := List.mem_singleton.mp hmem
  injection h with hs
  exact absurd hs (by decide)

/-- C4 (code evaluation at the failing input): on a fresh request, `Dry`
runs both failing configuration options but returns only the second
option's error — the Go loop executes `err = errors.Join(r.Error, o(r))`,
joining with the request's nil `Error` field instead of the accumulated
`err`, so the first option's error is discarded. -/
theorem c4_dry_drops_earlier_errors :
    (Dry reqPlain [failOpt "a", failOpt "b"]).2 = some (.join [.msg "b"]) ∧
    GoErr.msg "a" ∉ goUnwrap (Dry reqPlain [failOpt "a", failOpt "b"]).2 := by
  refine ⟨rfl, ?_⟩
  intro hmem
  rw [show goUnwrap (Dry reqPlain [failOpt "a", failOpt "b"]).2
        = [GoErr.msg "b"] from rfl] at hmem
  have h := List.mem_singleton.mp hmem
  injection h with hs
  exact absurd hs (by decide)

/-- C8: a `Response` that already carries a send-phase error makes `Handle`
return exactly that error, invoke none of the supplied steps, and leave the
response unchanged. -/
theorem c8_handle_short_circuit (r : Response) (e : GoErr)
    (opts : List ResponseOption) (h : r.Err = some e) :
    Handle r opts = ⟨r, some e, 0⟩ := by
  unfold Handle
  rw [h]

/-- Evaluation of C8: with a send-phase error present, two failing steps
are not invoked and the stored error is returned unchanged. -/
theorem c8_handle_short_circuit_witness :
    Handle { Response := some zeroHttpResponse, Err := some (.msg "send failed") }
        [failStep "x", failStep "y"]
      = ⟨{ Response := some zeroHttpResponse, Err := some (.msg "send failed") },
         some (.msg "send failed"), 0⟩ :=
  c8_handle_short_circuit _ (.msg "send failed") _ rfl

/-- C9 (counterexample): a configuration option failing during the same `Do`
call does not prevent the transport send — `Do` still performs one send —
although the option's error is surfaced in the returned error. -/
theorem c9_counterexample :
    (Do reqPlain [failOpt "bad option"] okTransport).sends = 1 ∧
    (Do reqPlain [failOpt "bad option"] okTransport).response.Err
      = some (.join [.msg "bad option"]) := by
  rw [Do_run reqPlain [failOpt "bad option"] okTransport rfl rfl]
  rw [show applyOpts reqPlain [failOpt "bad option"]
        = (reqPlain, [some (.msg "bad option")]) from rfl]
  rw [sender_success_stop reqPlain okTransport 0 none [] { StatusCode := 200 }
      (by simp) rfl (by simp [reqPlain])]
  exact ⟨rfl, rfl⟩

/-- C9 (amended): a construction error already carried by the `Request`
short-circuits `Do` — no send is attempted and that error is surfaced
unchanged; an error produced by a configuration option during the same `Do`
call is surfaced in the unwrapped aggregated error, but does not prevent the
send. -/
theorem c9_construction_error_amended (r : Request)
    (opts : List RequestOption) (t : Transport) (e : GoErr) :
    (r.Error = some e →
      (Do r opts t).sends = 0 ∧ (Do r opts t).response.Err = some e) ∧
    (r.Error = none → r.hasRequest = true →
      ∀ err : GoErr, some err ∈ (applyOpts r opts).2 →
        err ∈ goUnwrap (Do r opts t).response.Err) := by
  constructor
  · intro hE
    rw [Do_shortcircuit r opts t (Or.inl (by rw [hE]; rfl))]
    exact ⟨rfl, by rw [hE]⟩
  · intro hE hR err hmem
    rw [Do_run r opts t hE hR]
    dsimp only
    rw [goUnwrap_errorsJoin, List.filterMap_append]
    refine List.mem_append_left _ ?_
    rw [List.mem_filterMap]
    exact ⟨some err, hmem, rfl⟩

/-- Evaluation of the amended C9: a stored construction error suppresses
the send and is returned as-is; an option error raised during `Do` is
surfaced in the unwrapped aggregated error. -/
theorem c9_construction_error_amended_witness :
    ((Do reqErr [] okTransport).sends = 0 ∧
     (Do reqErr [] okTransport).response.Err = some (.msg "ctor")) ∧
    GoErr.msg "bad option"
      ∈ goUnwrap (Do reqPlain [failOpt "bad option"] okTransport).response.Err :=
  ⟨(c9_construction_error_amended reqErr [] okTransport (.msg "ctor")).1 rfl,
   (c9_construction_error_amended reqPlain [failOpt "bad option"] okTransport
      (.msg "unused")).2 rfl rfl (.msg "bad option") (by simp [applyOpts, failOpt])⟩

/-- C5: every retry transition's requested backoff, with attempts 1-indexed
(the i-th recorded wait, 0-based, precedes the (i+2)-th send and uses
multiplier i+1), equals `FallbackDuration * (i+1)` under the linear policy
and `FallbackDuration * (i+1)^2` under the exponential policy. -/
theorem c5_backoff_multiplier (r : Request) (t : Transport) (i : Nat)
    (hi : i < (Do r [] t).waits.length) :
    (r.policy = FallbackPolicy.linear →
      (Do r [] t).waits.getD i 0 = r.FallbackDuration * ((i : Int) + 1)) ∧
    (r.policy = FallbackPolicy.exponential →
      (Do r [] t).waits.getD i 0
        = r.FallbackDuration * (((i : Int) + 1) * ((i : Int) + 1))) := by
  by_cases hsc : r.Error.isSome = true ∨ r.hasRequest = false
  · rw [Do_shortcircuit r [] t hsc] at hi
    simp at hi
  · push_neg at hsc
    obtain ⟨h1, h2⟩ := hsc
    have hE : r.Error = none := by
      cases hcase : r.Error with
      | none => rfl
      | some e => rw [hcase] at h1; simp at h1
    have hR : r.hasRequest = true := by
      cases hcase : r.hasRequest with
      | false => exact absurd hcase h2
      | true => rfl
    rw [Do_noopts r t hE hR] at hi ⊢
    dsimp only at hi ⊢
    have hget : (sender r t 0 none []).waits.getD i 0
        = backoffDuration r (1 + i) := by
      rw [List.getD_eq_getElem _ 0 hi,
          List.getElem_of_eq (sender_waits_spec r t 0 none []) hi,
          List.getElem_map, List.getElem_range']
      norm_num
    rw [hget]
    constructor
    · intro hP
      simp only [backoffDuration, hP]
      push_cast
      ring
    · intro hP
      simp only [backoffDuration, hP]
      push_cast
      ring

/-- Evaluation of C5: a linear run with base delay 5 requests 5 (multiplier
1) as its first backoff. -/
theorem c5_backoff_multiplier_witness :
    0 < (Do reqLin [] failingTransport).waits.length ∧
    (Do reqLin [] failingTransport).waits.getD 0 0 = 5 := by
  have hlen : (Do reqLin [] failingTransport).waits.length = 1 := by
    rw [show failingTransport = failT eFail from rfl,
        Do_noopts reqLin (failT eFail) rfl rfl,
        sender_fail_spec reqLin eFail 0 none [] (by simp)]
    rfl
  refine ⟨by omega, ?_⟩
  have h := (c5_backoff_multiplier reqLin failingTransport 0 (by omega)).1 rfl
  rw [h]
  decide

/-- The status-assertion step returns no error when the status matches. -/
theorem assertion_step_match (codes : List Int) (r : Response)
    (h : HttpResponse) (hR : r.Response = some h)
    (hcont : codes.contains h.StatusCode = true) :
    (WithResponseStatusCodeAssertion codes r).2 = none := by
  unfold WithResponseStatusCodeAssertion
  rw [hR]
  simp only [Option.getD_some]
  rw [if_pos hcont]

/-- The status-assertion step on a mismatch with a non-empty body: the error
message is the body rendered as a `fmt` format string with no operands. -/
theorem assertion_step_nonempty_body (codes : List Int) (r : Response)
    (h : HttpResponse) (b : String) (hR : r.Response = some h)
    (hb : h.Body = some b)
    (hcont : codes.contains h.StatusCode = false) (hlen : 0 < b.length) :
    (WithResponseStatusCodeAssertion codes r).2
      = some (.msg (goFormatNoOperands b)) := by
  unfold WithResponseStatusCodeAssertion
  rw [hR]
  simp only [Option.getD_some]
  rw [if_neg (by rw [Bool.not_eq_true]; exact hcont), hb]
  dsimp only
  rw [if_pos hlen]

/-- The status-assertion step on a mismatch with an empty or absent body:
the error message is the formatted expectation message. -/
theorem assertion_step_empty_body (codes : List Int) (r : Response)
    (h : HttpResponse) (hR : r.Response = some h)
    (hbody : h.Body = none ∨ h.Body = some "")
    (hcont : codes.contains h.StatusCode = false) :
    (WithResponseStatusCodeAssertion codes r).2
      = some (.msg (statusMismatchMsg codes h.StatusCode)) := by
  unfold WithResponseStatusCodeAssertion
  rw [hR]
  simp only [Option.getD_some]
  rw [if_neg (by rw [Bool.not_eq_true]; exact hcont)]
  rcases hbody with hb | hb
  · rw [hb]
  · rw [hb]
    dsimp only
    rw [if_neg (by decide)]

/-- C7 (amended): the status-assertion step succeeds when the status is in
the expected set; on mismatch with a non-empty body the error message is the
body *used as a `fmt` format string with no operands* — equal to the raw
body exactly when the body contains no `%` — and with an empty or absent
body it is the formatted expectation message, which for expected `[201]`
against `200` is exactly `expected status code(s) '[201]', received '200'`. -/
theorem c7_status_assertion_amended (codes : List Int) (r : Response)
    (h : HttpResponse) (hR : r.Response = some h) :
    (codes.contains h.StatusCode = true →
      (WithResponseStatusCodeAssertion codes r).2 = none) ∧
    (codes.contains h.StatusCode = false →
      (∀ b : String, h.Body = some b → b ≠ "" →
        (WithResponseStatusCodeAssertion codes r).2
          = some (.msg (goFormatNoOperands b)) ∧
        ((∀ c ∈ b.data, c ≠ '%') → goFormatNoOperands b = b)) ∧
      ((h.Body = none ∨ h.Body = some "") →
        (WithResponseStatusCodeAssertion codes r).2
          = some (.msg (statusMismatchMsg codes h.StatusCode)))) ∧
    statusMismatchMsg [201] 200
      = "expected status code(s) '[201]', received '200'" := by
  refine ⟨assertion_step_match codes r h hR, ?_, statusMismatch_201_200⟩
  intro hcont
  constructor
  · intro b hb hbne
    constructor
    · have hlen : 0 < b.length := by
        rcases Nat.eq_zero_or_pos b.length with hz | hpos
        · exfalso
          apply hbne
          apply String.ext
          have hdata : b.data.length = 0 := hz
          exact List.length_eq_zero.mp hdata
        · exact hpos
      exact assertion_step_nonempty_body codes r h b hR hb hcont hlen
    · intro hnp
      unfold goFormatNoOperands
      rw [goFmtChars_no_percent b.data hnp]
  · intro hbody
    exact assertion_step_empty_body codes r h hR hbody hcont

/-- Evaluation of the amended C7 on the repository's own test scenarios:
a matching status yields no error; a `%`-free non-empty body is returned
verbatim as the message; an empty body yields the exact expectation
message. -/
theorem c7_status_assertion_amended_witness :
    (WithResponseStatusCodeAssertion [200] (resp200 none)).2 = none ∧
    (WithResponseStatusCodeAssertion [201] (resp200 (some "this is an error"))).2
      = some (.msg "this is an error") ∧
    (WithResponseStatusCodeAssertion [201] (resp200 (some ""))).2
      = some (.msg "expected status code(s) '[201]', received '200'") := by
  refine ⟨?_, ?_, ?_⟩
  · exact (c7_status_assertion_amended [200] (resp200 none)
      { StatusCode := 200 } rfl).1 (by decide)
  · have h := (c7_status_assertion_amended [201]
      (resp200 (some "this is an error"))
      { StatusCode := 200, Body := some "this is an error" } rfl).2.1
      (by decide)
    have h2 := h.1 "this is an error" rfl (by decide)
    rw [h2.1, h2.2 (by decide)]
  · have h := (c7_status_assertion_amended [201] (resp200 (some ""))
      { StatusCode := 200, Body := some "" } rfl).2.1 (by decide)
    rw [h.2 (Or.inr rfl),
        (c7_status_assertion_amended [201] (resp200 (some ""))
          { StatusCode := 200, Body := some "" } rfl).2.2]

/-- C7 (counterexample): a non-empty body containing a `fmt` directive is
not reproduced verbatim: asserting `[201]` against a `200` response whose
body is `%d` produces the message `%!d(MISSING)`, because the code passes
the body to `fmt.Errorf` as a format string with no operands. -/
theorem c7_raw_body_counterexample :
    (WithResponseStatusCodeAssertion [201] (resp200 (some "%d"))).2
      = some (.msg "%!d(MISSING)") ∧
    "%!d(MISSING)" ≠ "%d" := by
  constructor
  · rw [assertion_step_nonempty_body [201] (resp200 (some "%d"))
        { StatusCode := 200, Body := some "%d" } "%d" rfl rfl
        (by decide) (by decide)]
    rw [goFmt_percent_d]
  · decide
